import Mathlib

/-!
Formal model of the dense-region decomposition engine of `big-fish`
(`bigfish/detection/dense_decomposition.py`).

The Python functions are embedded shallowly:

* machine floats (`np.float64` arithmetic of the fitting loop) are modelled by `ℚ`;
* `np.int64` coordinates by `ℤ`;
* images and patches are flattened row-major into `List ℚ`;
* the external collaborators that are not part of the repository core
  (`build_reference_spot`, `modelize_spot`, `precompute_erf`, `_gaussian_2d`,
  `_gaussian_3d`, `scipy`/`skimage` labelling and region properties, the
  background denoiser) are abstracted as oracle parameters collected in the
  `Ext` structure;
* a `raise` is modelled by `Except.error`, the unbounded `while` loop by a
  fuel-indexed recursion returning `Option`/`Except`.
-/

namespace BigFish

/-- Truncation toward zero, the semantics of Python `int(float)` and of a
numpy float → int64 cast. -/
def pyInt (q : ℚ) : ℤ := if 0 ≤ q then ⌊q⌋ else ⌈q⌉

/-- The four element types accepted by `stack.check_array` in
`decompose_dense`, `get_dense_region` and `simulate_gaussian_mixture`. -/
inductive Dtype
  | uint8
  | uint16
  | float32
  | float64
deriving DecidableEq, Repr

/-- Behaviour of `np.iinfo(dtype).max`: defined for the integer dtypes only;
calling it on a float dtype raises `ValueError` (modelled as `none`). -/
def npIinfoMax : Dtype → Option ℤ
  | .uint8 => some 255
  | .uint16 => some 65535
  | .float32 => none
  | .float64 => none

/-- Model of lines 686-688 (and 779-781): `np.iinfo(dtype).max`, `np.clip`
to `[0, max]`, then cast back to the element type. `none` models the
`ValueError` raised by `np.iinfo` on a float dtype. -/
def clipCast (d : Dtype) (sim : List ℚ) : Option (List ℤ) :=
  (npIinfoMax d).map fun M => sim.map fun v => pyInt (min (max v 0) (M : ℚ))

/-- The semantics of `np.argmax` on a flattened array: index of the first
occurrence of the maximum (row-major scan order). -/
def npArgmax : List ℚ → ℕ
  | [] => 0
  | x :: t =>
    let j := npArgmax t
    match t.get? j with
    | none => 0
    | some m => if x < m then j + 1 else 0

/-- The semantics of `np.ndarray.max` on a flattened array (`0` in the
degenerate empty case, which `numpy` would reject). -/
def npMax : List ℚ → ℚ
  | [] => 0
  | x :: t => t.foldl max x

/-- Pointwise addition of two flattened arrays. -/
def addL (a b : List ℚ) : List ℚ := List.zipWith (· + ·) a b

/-- Pointwise subtraction of two flattened arrays. -/
def subL (a b : List ℚ) : List ℚ := List.zipWith (· - ·) a b

/-- Model of `np.zeros_like`. -/
def zerosLike (l : List ℚ) : List ℚ := l.map fun _ => 0

/-- Sum of squares of a flattened array (`np.sum(residual ** 2)`). -/
def ssrOf (r : List ℚ) : ℚ := (r.map fun x => x * x).sum

/-- State of the greedy fitting loop of `_gaussian_mixture_3d` /
`_gaussian_mixture_2d` (lines 643-672 and 739-765).  `π` is the type of a
recorded position (`ℚ × ℚ` in 2-d, `ℚ × ℚ × ℚ` in 3-d). -/
structure MixState (π : Type) where
  simulation : List ℚ
  residual : List ℚ
  ssr : ℚ
  diffSsr : ℚ
  nbGaussian : ℕ
  background : ℚ
  bestSimulation : List ℚ
  positions : List π
deriving DecidableEq, Repr

/-- State before the loop: zero simulation, residual equal to the raw patch,
`diff_ssr = -1`, no gaussian placed yet. -/
def initMixState {π : Type} (patch : List ℚ) (background : ℚ) : MixState π :=
  let simulation := zerosLike patch
  let residual := subL patch simulation
  { simulation := simulation
    residual := residual
    ssr := ssrOf residual
    diffSsr := -1
    nbGaussian := 0
    background := background
    bestSimulation := simulation
    positions := [] }

/-- One iteration of the loop body: pick the argmax of the residual, record
the corresponding grid position, add one simulated gaussian (obtained from
the external gaussian evaluator `g`), recompute residual and SSR, zero the
background for subsequent placements, snapshot the simulation on
improvement. -/
def mixtureBody {π : Type} (patch : List ℚ) (grid : ℕ → π) (g : π → ℚ → List ℚ)
    (st : MixState π) : MixState π :=
  let idx := npArgmax st.residual
  let mu := grid idx
  let simulation := addL st.simulation (g mu st.background)
  let residual := subL patch simulation
  let newSsr := ssrOf residual
  let diff := newSsr - st.ssr
  { simulation := simulation
    residual := residual
    ssr := newSsr
    diffSsr := diff
    nbGaussian := st.nbGaussian + 1
    background := 0
    bestSimulation := if diff < 0 then simulation else st.bestSimulation
    positions := st.positions ++ [mu] }

/-- The loop `while diff_ssr < 0 or nb_gaussian == limit_gaussian`, with the
condition transcribed verbatim from the source.  Fuel-indexed: `none` means
the loop had not terminated after `fuel` iterations. -/
def mixtureLoop {π : Type} (patch : List ℚ) (grid : ℕ → π) (g : π → ℚ → List ℚ)
    (limit : ℕ) : ℕ → MixState π → Option (MixState π)
  | 0, st => if st.diffSsr < 0 ∨ st.nbGaussian = limit then none else some st
  | fuel + 1, st =>
    if st.diffSsr < 0 ∨ st.nbGaussian = limit then
      mixtureLoop patch grid g limit fuel (mixtureBody patch grid g st)
    else some st

/-- Post-loop bookkeeping (lines 674-683): drop the last (non improving)
placement when `1 < nb_gaussian < limit_gaussian`; emit the "decomposition
incomplete" warning when `nb_gaussian == limit_gaussian`.  Returns the kept
positions and whether the warning fired. -/
def finishMixture {π : Type} (limit : ℕ) (st : MixState π) : List π × Bool :=
  if 1 < st.nbGaussian ∧ st.nbGaussian < limit then (st.positions.dropLast, false)
  else if st.nbGaussian = limit then (st.positions, true)
  else (st.positions, false)

deriving instance DecidableEq for Except

/-- Errors a run of the embedded code can produce.  `invalidArgument` stands
for the explicit `raise ValueError` of the parameter checks,
`negativeBackground` for the dedicated check in `simulate_gaussian_mixture`,
`npIinfoError` for the `ValueError` raised inside `np.iinfo` on a float
dtype, `indexError` for `coord[0]` on an empty coordinate array, and `fuel`
for a loop that did not terminate within the allotted fuel. -/
inductive Err
  | invalidArgument
  | negativeBackground
  | npIinfoError
  | indexError
  | fuel
deriving DecidableEq, Repr

/-- Result of one region fit: kept positions, whether the cap warning fired,
and the clipped-and-cast best simulated patch. -/
structure FitResult (π : Type) where
  positions : List π
  warning : Bool
  bestSimulation : List ℤ
deriving DecidableEq, Repr

/-- The per-region body of `_gaussian_mixture_3d` / `_gaussian_mixture_2d`
after patch extraction: the greedy loop followed by position trimming and
the clip-and-cast of the best simulation. -/
def gaussian_mixture_fit {π : Type} (d : Dtype) (patch : List ℚ) (grid : ℕ → π)
    (g : π → ℚ → List ℚ) (background : ℚ) (limitGaussian fuel : ℕ) :
    Except Err (FitResult π) :=
  match mixtureLoop patch grid g limitGaussian fuel (initMixState patch background) with
  | none => .error .fuel
  | some st =>
    let pw := finishMixture limitGaussian st
    match clipCast d st.bestSimulation with
    | none => .error .npIinfoError
    | some best => .ok ⟨pw.1, pw.2, best⟩

/-- Modelled from the spec: `_initialize_grid_2d` (external collaborator,
not part of the repository core) builds the coordinate grid of a flattened
`h × w` patch in physical units, pixel index × voxel size per axis. -/
def mkGrid2d (w : ℕ) (voxelYX : ℚ) (i : ℕ) : ℚ × ℚ :=
  (((i / w : ℕ) : ℚ) * voxelYX, ((i % w : ℕ) : ℚ) * voxelYX)

/-- Modelled from the spec: `_initialize_grid_3d` builds the coordinate grid
of a flattened `d × h × w` patch in physical units, pixel index × voxel size
per axis. -/
def mkGrid3d (h w : ℕ) (voxelZ voxelYX : ℚ) (i : ℕ) : ℚ × ℚ × ℚ :=
  (((i / (h * w) : ℕ) : ℚ) * voxelZ,
    ((i / w % h : ℕ) : ℚ) * voxelYX,
    ((i % w : ℕ) : ℚ) * voxelYX)

/-- A 2-d `(y, x)` or 3-d `(z, y, x)` intensity array: extents plus a pixel
lookup function. -/
inductive ImageData
  | two (h w : ℕ) (pix : ℕ → ℕ → ℚ)
  | three (d h w : ℕ) (pix : ℕ → ℕ → ℕ → ℚ)

/-- Rank of the image (`image.ndim`). -/
def ImageData.ndim : ImageData → ℕ
  | .two _ _ _ => 2
  | .three _ _ _ _ => 3

/-- Row-major flattening of the pixels inside the image extent. -/
def ImageData.flatten : ImageData → List ℚ
  | .two h w pix =>
    ((List.range h).map fun y => (List.range w).map fun x => pix y x).flatten
  | .three d h w pix =>
    ((List.range d).map fun z =>
      ((List.range h).map fun y => (List.range w).map fun x => pix z y x).flatten).flatten

/-- An image together with its element type. -/
structure Image where
  dtype : Dtype
  data : ImageData

/-- The `spots` array, an `np.int64` array of shape `(nb_spots, cols)`; the
column count is kept so that the shape survives an empty row list. -/
structure Spots where
  cols : ℕ
  rows : List (List ℤ)

/-- What the core reads from one `skimage` `RegionProperties` object: the
half-open bounding box `(min..., max...)` flattened to `2 * ndim` entries,
the pixel count and the mean intensity. -/
structure RegionProps where
  bbox : List ℤ
  area : ℤ
  meanIntensity : ℚ
deriving DecidableEq, Repr

/-- Decomposition parameters of `decompose_dense`. -/
structure DecomposeParams where
  voxelSizeZ : Option ℚ
  voxelSizeYX : ℚ
  psfZ : Option ℚ
  psfYX : ℚ
  alpha : ℚ
  beta : ℚ
  gamma : ℚ

/-- External collaborators of the core, abstracted: the background denoiser,
`build_reference_spot` (returning a flattened patch), `modelize_spot` for
each rank, `skimage.measure.label` + `regionprops` (consuming the binary
mask and the intensity image), `precompute_erf` (producing an opaque table
of type `T`) and the gaussian evaluators `_gaussian_3d` / `_gaussian_2d`
(evaluating one gaussian on the whole grid of a region patch). -/
structure Ext (T : Type) where
  denoise2 : (ℕ → ℕ → ℚ) → Option ℚ → ℚ → Option ℚ → ℚ → ℚ → ℕ → ℕ → ℚ
  denoise3 : (ℕ → ℕ → ℕ → ℚ) → Option ℚ → ℚ → Option ℚ → ℚ → ℚ → ℕ → ℕ → ℕ → ℚ
  buildRef : ImageData → List (List ℤ) → Option ℚ → ℚ → Option ℚ → ℚ → ℚ → List ℚ
  modelize3 : List ℚ → ℚ × ℚ × ℚ × ℚ
  modelize2 : List ℚ → ℚ × ℚ × ℚ
  labelRegions : List Bool → ImageData → List RegionProps
  precomputeErf : Option ℚ → ℚ → Option ℚ → ℚ → ℤ → T
  gauss3 : T → (ℕ → ℚ × ℚ × ℚ) → ℕ → ℚ × ℚ × ℚ → ℚ → ℚ → ℚ → ℚ → ℚ → ℚ → List ℚ
  gauss2 : T → (ℕ → ℚ × ℚ) → ℕ → ℚ × ℚ → ℚ → ℚ → ℚ → ℚ → List ℚ

/-- Line 285 of the source: `threshold = int(median_spot.max() * beta)` with
Python `int()` truncation toward zero. -/
def denseRegionThreshold (m beta : ℚ) : ℤ := pyInt (m * beta)

/-- Line 314 of the source (`_get_connected_region`): the binary mask
`image > threshold`, strict comparison, flattened row-major. -/
def maskOf (image : ImageData) (threshold : ℤ) : List Bool :=
  image.flatten.map fun v => decide ((threshold : ℚ) < v)

/-- Membership test of one spot in one 3-d bounding box, with the six
comparisons of lines 415-420 of the source. -/
def spot_in_box_3d (box : List ℤ) (s : List ℤ) : Bool :=
  decide (s.getD 0 0 < box.getD 3 0) && decide (s.getD 1 0 < box.getD 4 0) &&
  decide (s.getD 2 0 < box.getD 5 0) && decide (box.getD 0 0 ≤ s.getD 0 0) &&
  decide (box.getD 1 0 ≤ s.getD 1 0) && decide (box.getD 2 0 ≤ s.getD 2 0)

/-- Membership test of one spot in one 2-d bounding box, with the four
comparisons of lines 434-437 of the source. -/
def spot_in_box_2d (box : List ℤ) (s : List ℤ) : Bool :=
  decide (s.getD 0 0 < box.getD 2 0) && decide (s.getD 1 0 < box.getD 3 0) &&
  decide (box.getD 0 0 ≤ s.getD 0 0) && decide (box.getD 1 0 ≤ s.getD 1 0)

/-- Vectorised membership mask of one 3-d bounding box over all spots. -/
def spots_in_mask_3d (box : List ℤ) (spots : List (List ℤ)) : List Bool :=
  spots.map (spot_in_box_3d box)

/-- Vectorised membership mask of one 2-d bounding box over all spots. -/
def spots_in_mask_2d (box : List ℤ) (spots : List (List ℤ)) : List Bool :=
  spots.map (spot_in_box_2d box)

/-- Largest bounding-box extent along any axis, as accumulated by the loop. -/
def boxMaxExtent (nbDim : ℕ) (box : List ℤ) : ℤ :=
  if nbDim = 3 then
    max (max (box.getD 3 0 - box.getD 0 0) (box.getD 4 0 - box.getD 1 0))
      (box.getD 5 0 - box.getD 2 0)
  else max (box.getD 2 0 - box.getD 0 0) (box.getD 3 0 - box.getD 1 0)

/-- The boolean-mask selection `spots[mask]`. -/
def maskSelect : List (List ℤ) → List Bool → List (List ℤ)
  | [], _ => []
  | _ :: _, [] => []
  | s :: st, b :: bt => if b then s :: maskSelect st bt else maskSelect st bt

/-- Embedding of `_filter_spot_out_candidate_regions` (lines 378-444): keep
the spots whose running out-mask stays true across all candidate boxes, and
track the maximum region extent. -/
def filter_spot_out_candidate_regions (candidateBbox : List (List ℤ))
    (spots : List (List ℤ)) (nbDim : ℕ) : List (List ℤ) × ℤ :=
  let start : List Bool × ℤ := (spots.map fun _ => true, 0)
  let acc :=
    if nbDim = 3 then
      candidateBbox.foldl (fun acc box =>
        (List.zipWith (fun m i => m && !i) acc.1 (spots_in_mask_3d box spots),
          max acc.2 (boxMaxExtent 3 box))) start
    else
      candidateBbox.foldl (fun acc box =>
        (List.zipWith (fun m i => m && !i) acc.1 (spots_in_mask_2d box spots),
          max acc.2 (boxMaxExtent nbDim box))) start
  (maskSelect spots acc.1, acc.2)

/-- Embedding of `_filter_connected_region` (lines 322-375): keep regions of
area at least 2; note that the degenerate early return tests the unfiltered
region list, exactly as the source does. -/
def filter_connected_region (regions : List RegionProps) (spots : List (List ℤ))
    (ndim : ℕ) : List RegionProps × List (List ℤ) × ℤ :=
  let filtered := regions.filter fun r => 2 ≤ r.area
  if regions = [] then ([], spots, 0)
  else
    let q := filter_spot_out_candidate_regions (filtered.map fun r => r.bbox) spots ndim
    (filtered, q.1, q.2)

/-- Embedding of `get_dense_region` (lines 209-294): parameter re-checks,
reference (median) spot via the external `build_reference_spot` at
`alpha = 0.5`, threshold, mask, external labelling, then filtering. -/
def get_dense_region {T : Type} (ext : Ext T) (image : ImageData) (spots : Spots)
    (voxelZ : Option ℚ) (voxelYX : ℚ) (psfZ : Option ℚ) (psfYX : ℚ) (beta : ℚ) :
    Except Err (List RegionProps × List (List ℤ) × ℤ) :=
  if beta < 0 then .error .invalidArgument
  else if image.ndim = 3 ∧ voxelZ = none then .error .invalidArgument
  else if image.ndim = 3 ∧ psfZ = none then .error .invalidArgument
  else if image.ndim ≠ spots.cols then .error .invalidArgument
  else
    let median := ext.buildRef image spots.rows voxelZ voxelYX psfZ psfYX (1 / 2)
    let threshold := denseRegionThreshold (npMax median) beta
    let cc := ext.labelRegions (maskOf image threshold) image
    .ok (filter_connected_region cc spots.rows image.ndim)

/-- Row-major extraction of the 2-d region patch `image[min_y:max_y,
min_x:max_x]`, flattened. -/
def region_patch_2d (pix : ℕ → ℕ → ℚ) (r : RegionProps) : List ℚ :=
  let minY := r.bbox.getD 0 0
  let minX := r.bbox.getD 1 0
  ((List.range (r.bbox.getD 2 0 - minY).toNat).map fun row =>
    (List.range (r.bbox.getD 3 0 - minX).toNat).map fun col =>
      pix (minY + row).toNat (minX + col).toNat).flatten

/-- Width of a 2-d region bounding box. -/
def region_width_2d (r : RegionProps) : ℕ := (r.bbox.getD 3 0 - r.bbox.getD 1 0).toNat

/-- Row-major extraction of the 3-d region patch, flattened. -/
def region_patch_3d (pix : ℕ → ℕ → ℕ → ℚ) (r : RegionProps) : List ℚ :=
  let minZ := r.bbox.getD 0 0
  let minY := r.bbox.getD 1 0
  let minX := r.bbox.getD 2 0
  (((List.range (r.bbox.getD 3 0 - minZ).toNat).map fun z =>
    ((List.range (r.bbox.getD 4 0 - minY).toNat).map fun row =>
      (List.range (r.bbox.getD 5 0 - minX).toNat).map fun col =>
        pix (minZ + z).toNat (minY + row).toNat (minX + col).toNat).flatten)).flatten

/-- Height of a 3-d region bounding box. -/
def region_height_3d (r : RegionProps) : ℕ := (r.bbox.getD 4 0 - r.bbox.getD 1 0).toNat

/-- Width of a 3-d region bounding box. -/
def region_width_3d (r : RegionProps) : ℕ := (r.bbox.getD 5 0 - r.bbox.getD 2 0).toNat

/-- The fitting part of `_gaussian_mixture_2d` on one region: patch
extraction, spec-modelled grid, greedy loop with the external gaussian
evaluator, trimming, clip-and-cast.  `limit_gaussian` keeps its default
value 1000, as in the call of `simulate_gaussian_mixture`. -/
def region_fit_2d {T : Type} (ext : Ext T) (d : Dtype) (pix : ℕ → ℕ → ℚ)
    (r : RegionProps) (voxelYX sigmaYX amplitude background : ℚ) (table : T)
    (fuel : ℕ) : Except Err (FitResult (ℚ × ℚ)) :=
  gaussian_mixture_fit d (region_patch_2d pix r) (mkGrid2d (region_width_2d r) voxelYX)
    (fun mu bg =>
      ext.gauss2 table (mkGrid2d (region_width_2d r) voxelYX)
        (region_patch_2d pix r).length mu sigmaYX voxelYX amplitude bg)
    background 1000 fuel

/-- The fitting part of `_gaussian_mixture_3d` on one region. -/
def region_fit_3d {T : Type} (ext : Ext T) (d : Dtype) (pix : ℕ → ℕ → ℕ → ℚ)
    (r : RegionProps) (voxelZ voxelYX sigmaZ sigmaYX amplitude background : ℚ)
    (table : T) (fuel : ℕ) : Except Err (FitResult (ℚ × ℚ × ℚ)) :=
  gaussian_mixture_fit d (region_patch_3d pix r)
    (mkGrid3d (region_height_3d r) (region_width_3d r) voxelZ voxelYX)
    (fun mu bg =>
      ext.gauss3 table (mkGrid3d (region_height_3d r) (region_width_3d r) voxelZ voxelYX)
        (region_patch_3d pix r).length mu sigmaZ sigmaYX voxelZ voxelYX amplitude bg)
    background 1000 fuel

/-- Lines 573-575: map fitted physical 2-d positions back into global pixel
coordinates (`coord / voxel + bbox minimum corner`), in `np.float64`. -/
def global_coords_2d (voxelYX : ℚ) (r : RegionProps) (ps : List (ℚ × ℚ)) :
    List (ℚ × ℚ) :=
  ps.map fun q =>
    (q.1 / voxelYX + (r.bbox.getD 0 0 : ℚ), q.2 / voxelYX + (r.bbox.getD 1 0 : ℚ))

/-- Lines 542-545: map fitted physical 3-d positions back into global pixel
coordinates. -/
def global_coords_3d (voxelZ voxelYX : ℚ) (r : RegionProps) (ps : List (ℚ × ℚ × ℚ)) :
    List (ℚ × ℚ × ℚ) :=
  ps.map fun q =>
    (q.1 / voxelZ + (r.bbox.getD 0 0 : ℚ),
      q.2.1 / voxelYX + (r.bbox.getD 1 0 : ℚ),
      q.2.2 / voxelYX + (r.bbox.getD 2 0 : ℚ))

/-- One iteration of the per-region loop of `simulate_gaussian_mixture`,
2-d branch (lines 560-585): fit, global coordinates, `np.int64` spot rows
tagged with the region index, and the summary record
`[y, x, nb_rna, area, mean_intensity, index]` cast to `np.int64`. -/
def fit_region_2d {T : Type} (ext : Ext T) (d : Dtype) (pix : ℕ → ℕ → ℚ)
    (r : RegionProps) (voxelYX sigmaYX amplitude background : ℚ) (table : T)
    (fuel : ℕ) (i : ℕ) : Except Err (List (List ℤ) × List ℤ) :=
  match region_fit_2d ext d pix r voxelYX sigmaYX amplitude background table fuel with
  | .error e => .error e
  | .ok fr =>
    match global_coords_2d voxelYX r fr.positions with
    | [] => .error .indexError
    | q :: rest =>
      .ok ((q :: rest).map fun c => [pyInt c.1, pyInt c.2, (i : ℤ)],
        [pyInt q.1, pyInt q.2, ((q :: rest).length : ℤ), r.area,
          pyInt r.meanIntensity, (i : ℤ)])

/-- One iteration of the per-region loop of `simulate_gaussian_mixture`,
3-d branch (lines 527-555). -/
def fit_region_3d {T : Type} (ext : Ext T) (d : Dtype) (pix : ℕ → ℕ → ℕ → ℚ)
    (r : RegionProps) (voxelZ voxelYX sigmaZ sigmaYX amplitude background : ℚ)
    (table : T) (fuel : ℕ) (i : ℕ) : Except Err (List (List ℤ) × List ℤ) :=
  match region_fit_3d ext d pix r voxelZ voxelYX sigmaZ sigmaYX amplitude background
      table fuel with
  | .error e => .error e
  | .ok fr =>
    match global_coords_3d voxelZ voxelYX r fr.positions with
    | [] => .error .indexError
    | q :: rest =>
      .ok ((q :: rest).map fun c => [pyInt c.1, pyInt c.2.1, pyInt c.2.2, (i : ℤ)],
        [pyInt q.1, pyInt q.2.1, pyInt q.2.2, ((q :: rest).length : ℤ), r.area,
          pyInt r.meanIntensity, (i : ℤ)])

/-- Python `enumerate`. -/
def enumerateFrom {α : Type} (n : ℕ) : List α → List (ℕ × α)
  | [] => []
  | a :: t => (n, a) :: enumerateFrom (n + 1) t

/-- Python `enumerate` starting at 0. -/
def enumerate {α : Type} (l : List α) : List (ℕ × α) := enumerateFrom 0 l

/-- A `for` loop whose body can raise, mapped over a list. -/
def exceptMapM {α β : Type} (f : α → Except Err β) : List α → Except Err (List β)
  | [] => .ok []
  | a :: t =>
    match f a with
    | .error e => .error e
    | .ok b =>
      match exceptMapM f t with
      | .error e => .error e
      | .ok bs => .ok (b :: bs)

/-- Embedding of `simulate_gaussian_mixture` (lines 449-590): parameter
checks, then the per-region loop of the branch matching the image rank;
returns the concatenated in-region spots and the summary records. -/
def simulate_gaussian_mixture {T : Type} (ext : Ext T) (d : Dtype)
    (image : ImageData) (candidateRegions : List RegionProps) (voxelZ : Option ℚ)
    (voxelYX : ℚ) (sigmaZ : Option ℚ) (sigmaYX amplitude background : ℚ)
    (table : T) (fuel : ℕ) : Except Err (List (List ℤ) × List (List ℤ)) :=
  if background < 0 then .error .negativeBackground
  else if image.ndim = 3 ∧ voxelZ = none then .error .invalidArgument
  else if image.ndim = 3 ∧ sigmaZ = none then .error .invalidArgument
  else
    match image with
    | .three _ _ _ pix =>
      match exceptMapM (fun q =>
          fit_region_3d ext d pix q.2 (voxelZ.getD 0) voxelYX (sigmaZ.getD 0) sigmaYX
            amplitude background table fuel q.1) (enumerate candidateRegions) with
      | .error e => .error e
      | .ok rs => .ok ((rs.map fun q => q.1).flatten, rs.map fun q => q.2)
    | .two _ _ pix =>
      match exceptMapM (fun q =>
          fit_region_2d ext d pix q.2 voxelYX sigmaYX amplitude background table
            fuel q.1) (enumerate candidateRegions) with
      | .error e => .error e
      | .ok rs => .ok ((rs.map fun q => q.1).flatten, rs.map fun q => q.2)

/-- Line 123: `voxel_size_z` forced to `None` for 2-d images. -/
def voxelZ_of (img : Image) (p : DecomposeParams) : Option ℚ :=
  if img.data.ndim = 2 then none else p.voxelSizeZ

/-- Line 123: `psf_z` forced to `None` for 2-d images. -/
def psfZ_of (img : Image) (p : DecomposeParams) : Option ℚ :=
  if img.data.ndim = 2 then none else p.psfZ

/-- Lines 131-141: the image denoised by the external background remover
when `gamma > 0`, otherwise an untouched copy. -/
def denoised_image {T : Type} (ext : Ext T) (img : Image) (p : DecomposeParams) :
    ImageData :=
  if 0 < p.gamma then
    match img.data with
    | .two h w pix =>
      .two h w (ext.denoise2 pix (voxelZ_of img p) p.voxelSizeYX (psfZ_of img p)
        p.psfYX p.gamma)
    | .three d h w pix =>
      .three d h w (ext.denoise3 pix (voxelZ_of img p) p.voxelSizeYX (psfZ_of img p)
        p.psfYX p.gamma)
  else img.data

/-- Lines 143-148: the reference spot built by the external
`build_reference_spot` on the denoised image. -/
def reference_spot_of {T : Type} (ext : Ext T) (img : Image) (spots : Spots)
    (p : DecomposeParams) : List ℚ :=
  ext.buildRef (denoised_image ext img p) spots.rows (voxelZ_of img p)
    p.voxelSizeYX (psfZ_of img p) p.psfYX p.alpha

/-- Lines 155-162: the gaussian parameters fitted on the reference spot
(`sigma_z?`, `sigma_yx`, `amplitude`, `background`). -/
def fitted_params {T : Type} (ext : Ext T) (img : Image) (spots : Spots)
    (p : DecomposeParams) : Option ℚ × ℚ × ℚ × ℚ :=
  if img.data.ndim = 3 then
    let q := ext.modelize3 (reference_spot_of ext img spots p)
    (some q.1, q.2.1, q.2.2.1, q.2.2.2)
  else
    let q := ext.modelize2 (reference_spot_of ext img spots p)
    (none, q.1, q.2.1, q.2.2)

/-- Lines 176-179: the precomputed erf table shared by all region fits,
sized by the maximum region extent. -/
def table_of {T : Type} (ext : Ext T) (img : Image) (spots : Spots)
    (p : DecomposeParams) (msize : ℤ) : T :=
  ext.precomputeErf (voxelZ_of img p) p.voxelSizeYX
    (fitted_params ext img spots p).1 (fitted_params ext img spots p).2.1
    (max 200 (msize + 1))

/-- The conditions under which the validation phase of `decompose_dense`
(lines 100-121) raises, given a type-correct image and spot array. -/
def invalid_decompose_args (img : Image) (spots : Spots) (p : DecomposeParams) : Prop :=
  p.alpha < 0 ∨ 1 < p.alpha ∨ p.beta < 0 ∨ p.gamma < 0 ∨
    (img.data.ndim = 3 ∧ (p.voxelSizeZ = none ∨ p.psfZ = none)) ∨
    img.data.ndim ≠ spots.cols

instance (img : Image) (spots : Spots) (p : DecomposeParams) :
    Decidable (invalid_decompose_args img spots p) := by
  unfold invalid_decompose_args; infer_instance

/-- Successful output of `decompose_dense`: merged spot list, region summary
records, reference spot patch, and whether the fewer-spots warning fired. -/
structure DecomposeOk where
  spots : List (List ℤ)
  denseRegions : List (List ℤ)
  referenceSpot : List ℚ
  warned : Bool
deriving DecidableEq, Repr

/-- Embedding of the orchestrator `decompose_dense` (lines 25-204):
validation, degenerate short-circuits, reference spot, fitted parameters,
dense-region detection, gaussian-mixture simulation, fewer-spots warning and
the final merge of outside and inside spots. -/
def decompose_dense {T : Type} (ext : Ext T) (img : Image) (spots : Spots)
    (p : DecomposeParams) (fuel : ℕ) : Except Err DecomposeOk :=
  if p.alpha < 0 ∨ 1 < p.alpha then .error .invalidArgument
  else if p.beta < 0 then .error .invalidArgument
  else if p.gamma < 0 then .error .invalidArgument
  else if img.data.ndim = 3 ∧ p.voxelSizeZ = none then .error .invalidArgument
  else if img.data.ndim = 3 ∧ p.psfZ = none then .error .invalidArgument
  else if img.data.ndim ≠ spots.cols then .error .invalidArgument
  else if spots.rows.length * spots.cols = 0 then
    .ok ⟨spots.rows, [], List.replicate (5 ^ img.data.ndim) 0, false⟩
  else if (reference_spot_of ext img spots p).sum = 0 then
    .ok ⟨spots.rows, [], reference_spot_of ext img spots p, false⟩
  else
    match get_dense_region ext (denoised_image ext img p) spots (voxelZ_of img p)
        p.voxelSizeYX (psfZ_of img p) p.psfYX p.beta with
    | .error e => .error e
    | .ok (regionsToDecompose, spotsOutRegions, regionSize) =>
      if regionsToDecompose = [] then
        .ok ⟨spots.rows, [], reference_spot_of ext img spots p, false⟩
      else
        match simulate_gaussian_mixture ext img.dtype (denoised_image ext img p)
            regionsToDecompose (voxelZ_of img p) p.voxelSizeYX
            (fitted_params ext img spots p).1 (fitted_params ext img spots p).2.1
            (fitted_params ext img spots p).2.2.1 (fitted_params ext img spots p).2.2.2
            (table_of ext img spots p regionSize) fuel with
        | .error e => .error e
        | .ok (spotsInRegions, denseRegions) =>
          .ok ⟨spotsOutRegions ++ spotsInRegions.map (List.take img.data.ndim),
            denseRegions, reference_spot_of ext img spots p,
            decide (spotsOutRegions.length + spotsInRegions.length <
              spots.rows.length)⟩

/-! Basic facts about the greedy loop. -/

theorem initMixState_diffSsr {π : Type} (patch : List ℚ) (bg : ℚ) :
    (initMixState (π := π) patch bg).diffSsr = -1 := rfl

theorem initMixState_nbGaussian {π : Type} (patch : List ℚ) (bg : ℚ) :
    (initMixState (π := π) patch bg).nbGaussian = 0 := rfl

theorem initMixState_positions {π : Type} (patch : List ℚ) (bg : ℚ) :
    (initMixState (π := π) patch bg).positions = [] := rfl

theorem initMixState_residual {π : Type} (patch : List ℚ) (bg : ℚ) :
    (initMixState (π := π) patch bg).residual = subL patch (zerosLike patch) := rfl

theorem mixtureBody_nbGaussian {π : Type} (patch : List ℚ) (grid : ℕ → π)
    (g : π → ℚ → List ℚ) (st : MixState π) :
    (mixtureBody patch grid g st).nbGaussian = st.nbGaussian + 1 := rfl

theorem mixtureBody_positions {π : Type} (patch : List ℚ) (grid : ℕ → π)
    (g : π → ℚ → List ℚ) (st : MixState π) :
    (mixtureBody patch grid g st).positions =
      st.positions ++ [grid (npArgmax st.residual)] := rfl

theorem subL_zerosLike (l : List ℚ) : subL l (zerosLike l) = l := by
  induction l with
  | nil => rfl
  | cons a t ih =>
    show (a - 0) :: subL t (zerosLike t) = a :: t
    rw [sub_zero, ih]

/-- When the loop of `_gaussian_mixture_2d` / `_gaussian_mixture_3d` exits,
its condition is false: `diff_ssr ≥ 0` and also `nb_gaussian ≠
limit_gaussian`; exiting exactly at the cap is impossible. -/
theorem mixtureLoop_exit {π : Type} (patch : List ℚ) (grid : ℕ → π)
    (g : π → ℚ → List ℚ) (limit : ℕ) : ∀ (fuel : ℕ) (st st' : MixState π),
    mixtureLoop patch grid g limit fuel st = some st' →
    ¬ st'.diffSsr < 0 ∧ st'.nbGaussian ≠ limit := by
  intro fuel
  induction fuel with
  | zero =>
    intro st st' h
    simp only [mixtureLoop] at h
    split at h
    · simp at h
    · next hc =>
      rw [not_or] at hc
      exact Option.some.inj h ▸ hc
  | succ n ih =>
    intro st st' h
    simp only [mixtureLoop] at h
    split at h
    · exact ih _ _ h
    · next hc =>
      rw [not_or] at hc
      exact Option.some.inj h ▸ hc

theorem mixtureLoop_nb_le {π : Type} (patch : List ℚ) (grid : ℕ → π)
    (g : π → ℚ → List ℚ) (limit : ℕ) : ∀ (fuel : ℕ) (st st' : MixState π),
    mixtureLoop patch grid g limit fuel st = some st' →
    st.nbGaussian ≤ st'.nbGaussian := by
  intro fuel
  induction fuel with
  | zero =>
    intro st st' h
    simp only [mixtureLoop] at h
    split at h
    · simp at h
    · exact Option.some.inj h ▸ le_refl _
  | succ n ih =>
    intro st st' h
    simp only [mixtureLoop] at h
    split at h
    · have := ih _ _ h
      rw [mixtureBody_nbGaussian] at this
      omega
    · exact Option.some.inj h ▸ le_refl _

theorem mixtureLoop_len {π : Type} (patch : List ℚ) (grid : ℕ → π)
    (g : π → ℚ → List ℚ) (limit : ℕ) : ∀ (fuel : ℕ) (st st' : MixState π),
    mixtureLoop patch grid g limit fuel st = some st' →
    st.positions.length = st.nbGaussian → st'.positions.length = st'.nbGaussian := by
  intro fuel
  induction fuel with
  | zero =>
    intro st st' h hlen
    simp only [mixtureLoop] at h
    split at h
    · simp at h
    · exact Option.some.inj h ▸ hlen
  | succ n ih =>
    intro st st' h hlen
    simp only [mixtureLoop] at h
    split at h
    · refine ih _ _ h ?_
      rw [mixtureBody_positions, mixtureBody_nbGaussian, List.length_append, hlen]
      rfl
    · exact Option.some.inj h ▸ hlen

theorem mixtureLoop_head {π : Type} (patch : List ℚ) (grid : ℕ → π)
    (g : π → ℚ → List ℚ) (limit : ℕ) : ∀ (fuel : ℕ) (st st' : MixState π),
    mixtureLoop patch grid g limit fuel st = some st' →
    st.positions ≠ [] → st'.positions.head? = st.positions.head? := by
  intro fuel
  induction fuel with
  | zero =>
    intro st st' h hne
    simp only [mixtureLoop] at h
    split at h
    · simp at h
    · exact Option.some.inj h ▸ rfl
  | succ n ih =>
    intro st st' h hne
    simp only [mixtureLoop] at h
    split at h
    · have hb : (mixtureBody patch grid g st).positions.head? = st.positions.head? ∧
          (mixtureBody patch grid g st).positions ≠ [] := by
        rw [mixtureBody_positions]
        cases hp : st.positions with
        | nil => exact absurd hp hne
        | cons a t => simp
      rw [← hb.1]
      exact ih _ _ h hb.2
    · exact Option.some.inj h ▸ rfl

/-- Starting from the initial state, the loop always executes at least one
iteration (the initial `diff_ssr = -1` makes the condition true). -/
theorem mixtureLoop_init_step {π : Type} (patch : List ℚ) (grid : ℕ → π)
    (g : π → ℚ → List ℚ) (limit : ℕ) (bg : ℚ) (fuel : ℕ) (st' : MixState π)
    (h : mixtureLoop patch grid g limit fuel (initMixState patch bg) = some st') :
    ∃ n, fuel = n + 1 ∧
      mixtureLoop patch grid g limit n
        (mixtureBody patch grid g (initMixState patch bg)) = some st' := by
  have hcond : (initMixState (π := π) patch bg).diffSsr < 0 ∨
      (initMixState (π := π) patch bg).nbGaussian = limit := by
    left
    rw [initMixState_diffSsr]
    norm_num
  cases fuel with
  | zero =>
    simp only [mixtureLoop] at h
    rw [if_pos hcond] at h
    simp at h
  | succ n =>
    refine ⟨n, rfl, ?_⟩
    simp only [mixtureLoop] at h
    rwa [if_pos hcond] at h

theorem head?_dropLast_of_two_le {α : Type} :
    ∀ (l : List α), 2 ≤ l.length → l.dropLast.head? = l.head?
  | a :: b :: t, _ => by
    have : (a :: b :: t).dropLast = a :: (b :: t).dropLast := rfl
    rw [this]
    rfl
  | [], h => by simp at h
  | [a], h => by simp at h

/-- For every input, a terminating run of the greedy loop finishes with the
cap warning unset: the warning branch `nb_gaussian == limit_gaussian` of
lines 676-683 is unreachable, because exiting the `while` requires
`nb_gaussian != limit_gaussian`. -/
theorem finishMixture_warning_never_fires {π : Type} (patch : List ℚ) (grid : ℕ → π)
    (g : π → ℚ → List ℚ) (limit fuel : ℕ) (st st' : MixState π)
    (h : mixtureLoop patch grid g limit fuel st = some st') :
    (finishMixture limit st').2 = false := by
  obtain ⟨-, hne⟩ := mixtureLoop_exit patch grid g limit fuel st st' h
  by_cases h1 : 1 < st'.nbGaussian ∧ st'.nbGaussian < limit
  · unfold finishMixture
    rw [if_pos h1]
  · unfold finishMixture
    rw [if_neg h1, if_neg hne]

/-- C5: when the per-region fitting loop terminates, the returned positions
list is non-empty (length at least 1), and its first element is the grid
point of the argmax of the raw patch — the first position in row-major scan
order in case of ties, in particular index 0 for an all-zero patch. -/
theorem C5_at_least_one_position {π : Type} (patch : List ℚ) (grid : ℕ → π)
    (g : π → ℚ → List ℚ) (background : ℚ) (limit fuel : ℕ) (st' : MixState π)
    (h : mixtureLoop patch grid g limit fuel (initMixState patch background) = some st') :
    1 ≤ (finishMixture limit st').1.length ∧
      (finishMixture limit st').1.head? = some (grid (npArgmax patch)) := by
  obtain ⟨n, rfl, h1⟩ := mixtureLoop_init_step patch grid g limit background _ st' h
  have hpos1 : (mixtureBody patch grid g (initMixState patch background)).positions =
      [grid (npArgmax patch)] := by
    rw [mixtureBody_positions, initMixState_positions, initMixState_residual,
      subL_zerosLike]
    rfl
  have hlen : st'.positions.length = st'.nbGaussian := by
    refine mixtureLoop_len patch grid g limit n _ _ h1 ?_
    rw [hpos1, mixtureBody_nbGaussian, initMixState_nbGaussian]
    rfl
  have hnb : 1 ≤ st'.nbGaussian := by
    have := mixtureLoop_nb_le patch grid g limit n _ _ h1
    rw [mixtureBody_nbGaussian, initMixState_nbGaussian] at this
    omega
  have hhead : st'.positions.head? = some (grid (npArgmax patch)) := by
    have := mixtureLoop_head patch grid g limit n _ _ h1 (by rw [hpos1]; simp)
    rw [hpos1] at this
    exact this
  unfold finishMixture
  split
  · next hc =>
    constructor
    · rw [List.length_dropLast, hlen]
      omega
    · rw [head?_dropLast_of_two_le _ (by rw [hlen]; omega)]
      exact hhead
  · split
    · exact ⟨by rw [hlen]; omega, hhead⟩
    · exact ⟨by rw [hlen]; omega, hhead⟩

/-! Concrete scenario exercising the iteration cap: a flattened `1 × 2`
patch `[4, 4]` at voxel size 1, with a gaussian evaluator that keeps
strictly improving through the cap and stops improving afterwards. -/

/-- Patch of the concrete cap scenario (a `1 × 2` region of two pixels of
value 4). -/
def patchW : List ℚ := [4, 4]

/-- Grid of the `1 × 2` region at voxel size 1. -/
def gridW : ℕ → ℚ × ℚ := mkGrid2d 2 1

/-- Concrete external gaussian evaluator of the cap scenario. -/
def gW : ℚ × ℚ → ℚ → List ℚ := fun mu bg =>
  if mu = (0, 0) ∧ bg = 1 then [3, 0]
  else if mu = (0, 1) then [0, 3]
  else [0, 0]

/-- C1: with `limit_gaussian = 2`, a region whose second placement is still
improving makes the loop run past the cap: the fit performs 3 placements,
returns 3 positions (the non-improving last one included, no trimming) and
records no warning — where the claim mandates an exit at exactly 2 kept
placements with the incomplete-decomposition warning recorded.  The loop
condition `while diff_ssr < 0 or nb_gaussian == limit_gaussian` cannot exit
at the cap. -/
theorem C1_cap_overrun :
    (gaussian_mixture_fit Dtype.uint8 patchW gridW gW 1 2 10).map
        (fun fr => (fr.positions.length, fr.warning)) = Except.ok (3, false) := by
  with_unfolding_all decide

/-- C2: the clip-and-cast step is not total over the four permitted element
types: on a float32 region the fit raises (model of the `ValueError` of
`np.iinfo` on a float dtype) while the same region with a uint8 element type
succeeds. -/
theorem C2_clip_cast_raises_on_float :
    gaussian_mixture_fit Dtype.float32 patchW gridW gW 1 1000 10 =
        .error .npIinfoError ∧
      gaussian_mixture_fit Dtype.uint8 patchW gridW gW 1 1000 10 =
        .ok ⟨[(0, 0), (0, 1)], false, [3, 3]⟩ := by
  with_unfolding_all decide

/-- Final loop state of the all-zero-patch run used to witness C5. -/
def stZ : MixState (ℚ × ℚ) :=
  ⟨[1, 0], [-1, 0], 1, 1, 1, 0, [0, 0], [(0, 0)]⟩

theorem C5_witness :
    1 ≤ (finishMixture 1000 stZ).1.length ∧
      (finishMixture 1000 stZ).1.head? = some (mkGrid2d 2 1 (npArgmax [0, 0])) :=
  C5_at_least_one_position [0, 0] (mkGrid2d 2 1) (fun _ _ => [1, 0]) 0 1000 5 stZ
    (by with_unfolding_all decide)

/-! Partition of the spots with respect to the kept bounding boxes (C4). -/

/-- Specification-side membership: on every axis simultaneously,
`min ≤ coord < max` for the half-open bounding box. -/
def inBoxSpec (ndim : ℕ) (box s : List ℤ) : Prop :=
  ∀ k, k < ndim → box.getD k 0 ≤ s.getD k 0 ∧ s.getD k 0 < box.getD (ndim + k) 0

instance (ndim : ℕ) (box s : List ℤ) : Decidable (inBoxSpec ndim box s) := by
  unfold inBoxSpec
  infer_instance

theorem spot_in_box_3d_iff (box s : List ℤ) :
    spot_in_box_3d box s = true ↔ inBoxSpec 3 box s := by
  unfold spot_in_box_3d inBoxSpec
  simp only [Bool.and_eq_true, decide_eq_true_eq]
  constructor
  · rintro ⟨⟨⟨⟨⟨a, b⟩, c⟩, d⟩, e⟩, f⟩ k hk
    interval_cases k
    · exact ⟨d, a⟩
    · exact ⟨e, b⟩
    · exact ⟨f, c⟩
  · intro h
    obtain ⟨d, a⟩ := h 0 (by omega)
    obtain ⟨e, b⟩ := h 1 (by omega)
    obtain ⟨f, c⟩ := h 2 (by omega)
    exact ⟨⟨⟨⟨⟨a, b⟩, c⟩, d⟩, e⟩, f⟩

theorem spot_in_box_2d_iff (box s : List ℤ) :
    spot_in_box_2d box s = true ↔ inBoxSpec 2 box s := by
  unfold spot_in_box_2d inBoxSpec
  simp only [Bool.and_eq_true, decide_eq_true_eq]
  constructor
  · rintro ⟨⟨⟨a, b⟩, c⟩, d⟩ k hk
    interval_cases k
    · exact ⟨c, a⟩
    · exact ⟨d, b⟩
  · intro h
    obtain ⟨c, a⟩ := h 0 (by omega)
    obtain ⟨d, b⟩ := h 1 (by omega)
    exact ⟨⟨⟨a, b⟩, c⟩, d⟩

theorem zipWith_and_not_map {α : Type} (f h : α → Bool) :
    ∀ l : List α,
      List.zipWith (fun m i => m && !i) (l.map f) (l.map h) =
        l.map fun x => f x && !h x
  | [] => rfl
  | a :: t => by
    simp only [List.map_cons, List.zipWith_cons_cons]
    rw [zipWith_and_not_map f h t]

theorem mask_foldl {α : Type} (inB : List ℤ → α → Bool) (sz : List ℤ → ℤ)
    (spots : List α) :
    ∀ (boxes : List (List ℤ)) (f : α → Bool) (m : ℤ),
      (boxes.foldl (fun acc box =>
        (List.zipWith (fun m i => m && !i) acc.1 (spots.map (inB box)),
          max acc.2 (sz box))) (spots.map f, m)).1 =
        spots.map fun s => f s && boxes.all fun b => !(inB b s) := by
  intro boxes
  induction boxes with
  | nil =>
    intro f m
    simp
  | cons b bs ih =>
    intro f m
    rw [List.foldl_cons]
    have hz := zipWith_and_not_map f (inB b) spots
    simp only [hz]
    rw [ih]
    refine List.map_congr_left fun s _ => ?_
    simp [Bool.and_assoc]

theorem maskSelect_map (p : List ℤ → Bool) :
    ∀ l : List (List ℤ), maskSelect l (l.map p) = l.filter p
  | [] => rfl
  | a :: t => by
    simp only [List.map_cons, maskSelect]
    by_cases h : p a
    · rw [if_pos h, List.filter_cons_of_pos h, maskSelect_map p t]
    · rw [if_neg h, List.filter_cons_of_neg h, maskSelect_map p t]

/-- C4: for every spot list and list of kept bounding boxes, the outside
subsequence returned by the partition is exactly the filter of the spots
that no kept box contains (`min ≤ coord < max` simultaneously on every
axis); being a filter, each spot is excluded by any one match and appears
at most once. -/
theorem C4_outside_partition (candidateBbox : List (List ℤ))
    (spots : List (List ℤ)) (nbDim : ℕ) (hdim : nbDim = 2 ∨ nbDim = 3) :
    (filter_spot_out_candidate_regions candidateBbox spots nbDim).1 =
      spots.filter fun s =>
        decide (∀ box ∈ candidateBbox, ¬ inBoxSpec nbDim box s) := by
  have key : ∀ (inB : List ℤ → List ℤ → Bool) (nd : ℕ),
      (∀ box s, inB box s = true ↔ inBoxSpec nd box s) →
      (spots.map fun s => true && candidateBbox.all fun b => !(inB b s)) =
        spots.map fun s => decide (∀ box ∈ candidateBbox, ¬ inBoxSpec nd box s) := by
    intro inB nd hiff
    refine List.map_congr_left fun s _ => ?_
    rw [Bool.true_and, Bool.eq_iff_iff, List.all_eq_true, decide_eq_true_eq]
    constructor
    · intro hall box hb hspec
      have h1 := hall box hb
      rw [Bool.not_eq_true'] at h1
      rw [← hiff] at hspec
      rw [h1] at hspec
      exact Bool.false_ne_true hspec
    · intro hnone box hb
      rw [Bool.not_eq_true']
      cases hsb : inB box s with
      | false => rfl
      | true => exact absurd ((hiff box s).mp hsb) (hnone box hb)
  rcases hdim with rfl | rfl
  · have h23 : ¬((2 : ℕ) = 3) := by norm_num
    simp only [filter_spot_out_candidate_regions, spots_in_mask_2d, if_neg h23]
    rw [mask_foldl (spot_in_box_2d) (boxMaxExtent 2) spots candidateBbox
      (fun _ => true) 0]
    rw [key spot_in_box_2d 2 spot_in_box_2d_iff, maskSelect_map]
  · simp only [filter_spot_out_candidate_regions, spots_in_mask_3d, if_true]
    rw [mask_foldl (spot_in_box_3d) (boxMaxExtent 3) spots candidateBbox
      (fun _ => true) 0]
    rw [key spot_in_box_3d 3 spot_in_box_3d_iff, maskSelect_map]

theorem C4_witness :
    (filter_spot_out_candidate_regions [[0, 0, 2, 2]] [[1, 1], [5, 5], [1, 1]] 2).1 =
      [[5, 5]] :=
  (C4_outside_partition [[0, 0, 2, 2]] [[1, 1], [5, 5], [1, 1]] 2 (Or.inl rfl)).trans
    (by with_unfolding_all decide)

/-! Monotonicity of the dense-region threshold in `beta` (C9). -/

theorem maskOf_getD (image : ImageData) (t : ℤ) (i : ℕ) :
    ((maskOf image t).getD i false = true ↔
      ∃ v, image.flatten.get? i = some v ∧ (t : ℚ) < v) := by
  unfold maskOf
  rw [List.getD_eq_getD_get?, List.get?_map]
  cases hq : image.flatten.get? i with
  | none => simp
  | some v => simp

/-- C9 counterexample image: a single pixel of value −1 (a float image can
hold negative values, e.g. with `gamma = 0` and a raw float input). -/
def imgNeg : ImageData := .two 1 1 fun _ _ => -1

/-- C9: as stated the claim is false: for a negative reference-spot maximum
(here −1) the thresholds reverse — with `beta1 = 0 ≤ beta2 = 2` (both
admissible) the pixel of value −1 exceeds the `beta2` threshold (−2) but
not the `beta1` threshold (0), so the `beta2` mask is not a subset of the
`beta1` mask. -/
theorem C9_counterexample :
    (0 : ℚ) ≤ 0 ∧ (0 : ℚ) ≤ 2 ∧
      ¬ (∀ i, (maskOf imgNeg (denseRegionThreshold (-1) 2)).getD i false = true →
          (maskOf imgNeg (denseRegionThreshold (-1) 0)).getD i false = true) := by
  refine ⟨le_refl 0, by norm_num, fun h => ?_⟩
  have h2 : (maskOf imgNeg (denseRegionThreshold (-1) 2)).getD 0 false = true := by
    with_unfolding_all decide
  have h0 := h 0 h2
  revert h0
  with_unfolding_all decide

/-- C9 amended: for a nonnegative reference-spot maximum the claim holds:
the computed threshold is `floor(max × beta)` and, for `0 ≤ beta1 ≤ beta2`,
every pixel strictly above the `beta2` threshold is strictly above the
`beta1` threshold — increasing `beta` never increases the set of
threshold-exceeding pixels. -/
theorem C9_monotone_amended (image : ImageData) (m b1 b2 : ℚ) (hm : 0 ≤ m)
    (hb1 : 0 ≤ b1) (h12 : b1 ≤ b2) :
    denseRegionThreshold m b1 = ⌊m * b1⌋ ∧
      ∀ i, (maskOf image (denseRegionThreshold m b2)).getD i false = true →
        (maskOf image (denseRegionThreshold m b1)).getD i false = true := by
  have hprod1 : (0 : ℚ) ≤ m * b1 := mul_nonneg hm hb1
  have hprod2 : (0 : ℚ) ≤ m * b2 := mul_nonneg hm (hb1.trans h12)
  have hth1 : denseRegionThreshold m b1 = ⌊m * b1⌋ := by
    unfold denseRegionThreshold pyInt
    rw [if_pos hprod1]
  have hth2 : denseRegionThreshold m b2 = ⌊m * b2⌋ := by
    unfold denseRegionThreshold pyInt
    rw [if_pos hprod2]
  have hle : denseRegionThreshold m b1 ≤ denseRegionThreshold m b2 := by
    rw [hth1, hth2]
    exact Int.floor_le_floor (mul_le_mul_of_nonneg_left h12 hm)
  refine ⟨hth1, fun i hi => ?_⟩
  rw [maskOf_getD] at hi ⊢
  obtain ⟨v, hv, hvt⟩ := hi
  refine ⟨v, hv, lt_of_le_of_lt ?_ hvt⟩
  exact_mod_cast hle

theorem C9_witness :
    denseRegionThreshold 1 1 = ⌊(1 : ℚ) * 1⌋ ∧
      ∀ i, (maskOf (ImageData.two 1 1 fun _ _ => 3) (denseRegionThreshold 1 2)).getD i
            false = true →
        (maskOf (ImageData.two 1 1 fun _ _ => 3) (denseRegionThreshold 1 1)).getD i
          false = true :=
  C9_monotone_amended (ImageData.two 1 1 fun _ _ => 3) 1 1 2 (by norm_num)
    (by norm_num) (by norm_num)

/-! Error classification of the pipeline stages, towards the validation
characterisation of `decompose_dense` (C7). -/

theorem exceptMapM_ok_mem {α β : Type} (f : α → Except Err β) :
    ∀ (l : List α) (ys : List β), exceptMapM f l = .ok ys →
      ∀ y ∈ ys, ∃ x ∈ l, f x = .ok y := by
  intro l
  induction l with
  | nil =>
    intro ys h y hy
    unfold exceptMapM at h
    obtain rfl : ([] : List β) = ys := Except.ok.inj h
    simp at hy
  | cons a t ih =>
    intro ys h y hy
    unfold exceptMapM at h
    cases hfa : f a with
    | error e =>
      simp only [hfa] at h
      cases h
    | ok b =>
      simp only [hfa] at h
      cases hmt : exceptMapM f t with
      | error e =>
        simp only [hmt] at h
        cases h
      | ok bs =>
        simp only [hmt] at h
        obtain rfl : b :: bs = ys := Except.ok.inj h
        rcases List.mem_cons.mp hy with rfl | hy2
        · exact ⟨a, List.mem_cons_self a t, hfa⟩
        · obtain ⟨x, hx, hfx⟩ := ih bs hmt y hy2
          exact ⟨x, List.mem_cons_of_mem a hx, hfx⟩

theorem exceptMapM_error_mem {α β : Type} (f : α → Except Err β) :
    ∀ (l : List α) (e : Err), exceptMapM f l = .error e → ∃ x ∈ l, f x = .error e := by
  intro l
  induction l with
  | nil =>
    intro e h
    unfold exceptMapM at h
    simp at h
  | cons a t ih =>
    intro e h
    unfold exceptMapM at h
    cases hfa : f a with
    | error e' =>
      simp only [hfa] at h
      have he := Except.error.inj h
      subst he
      exact ⟨a, List.mem_cons_self a t, hfa⟩
    | ok b =>
      simp only [hfa] at h
      cases hmt : exceptMapM f t with
      | error e' =>
        simp only [hmt] at h
        have he := Except.error.inj h
        subst he
        obtain ⟨x, hx, hfx⟩ := ih _ hmt
        exact ⟨x, List.mem_cons_of_mem a hx, hfx⟩
      | ok bs =>
        simp only [hmt] at h
        cases h

theorem gaussian_mixture_fit_error_cases {π : Type} (d : Dtype) (patch : List ℚ)
    (grid : ℕ → π) (g : π → ℚ → List ℚ) (bg : ℚ) (limit fuel : ℕ) (e : Err)
    (h : gaussian_mixture_fit d patch grid g bg limit fuel = .error e) :
    e = .fuel ∨ e = .npIinfoError := by
  unfold gaussian_mixture_fit at h
  cases hm : mixtureLoop patch grid g limit fuel (initMixState patch bg) with
  | none =>
    simp only [hm] at h
    exact Or.inl (Except.error.inj h).symm
  | some st =>
    simp only [hm] at h
    cases hc : clipCast d st.bestSimulation with
    | none =>
      simp only [hc] at h
      exact Or.inr (Except.error.inj h).symm
    | some best =>
      simp only [hc] at h
      cases h

theorem fit_region_2d_error_cases {T : Type} (ext : Ext T) (d : Dtype)
    (pix : ℕ → ℕ → ℚ) (r : RegionProps) (vyx syx amp bg : ℚ) (table : T)
    (fuel i : ℕ) (e : Err)
    (h : fit_region_2d ext d pix r vyx syx amp bg table fuel i = .error e) :
    e = .fuel ∨ e = .npIinfoError ∨ e = .indexError := by
  unfold fit_region_2d at h
  cases hr : region_fit_2d ext d pix r vyx syx amp bg table fuel with
  | error e' =>
    simp only [hr] at h
    obtain rfl : e' = e := Except.error.inj h
    unfold region_fit_2d at hr
    rcases gaussian_mixture_fit_error_cases _ _ _ _ _ _ _ _ hr with h1 | h1
    · exact Or.inl h1
    · exact Or.inr (Or.inl h1)
  | ok fr =>
    simp only [hr] at h
    cases hg : global_coords_2d vyx r fr.positions with
    | nil =>
      simp only [hg] at h
      exact Or.inr (Or.inr (Except.error.inj h).symm)
    | cons q rest =>
      simp only [hg] at h
      cases h

theorem fit_region_3d_error_cases {T : Type} (ext : Ext T) (d : Dtype)
    (pix : ℕ → ℕ → ℕ → ℚ) (r : RegionProps) (vz vyx sz syx amp bg : ℚ) (table : T)
    (fuel i : ℕ) (e : Err)
    (h : fit_region_3d ext d pix r vz vyx sz syx amp bg table fuel i = .error e) :
    e = .fuel ∨ e = .npIinfoError ∨ e = .indexError := by
  unfold fit_region_3d at h
  cases hr : region_fit_3d ext d pix r vz vyx sz syx amp bg table fuel with
  | error e' =>
    simp only [hr] at h
    obtain rfl : e' = e := Except.error.inj h
    unfold region_fit_3d at hr
    rcases gaussian_mixture_fit_error_cases _ _ _ _ _ _ _ _ hr with h1 | h1
    · exact Or.inl h1
    · exact Or.inr (Or.inl h1)
  | ok fr =>
    simp only [hr] at h
    cases hg : global_coords_3d vz vyx r fr.positions with
    | nil =>
      simp only [hg] at h
      exact Or.inr (Or.inr (Except.error.inj h).symm)
    | cons q rest =>
      simp only [hg] at h
      cases h

theorem simulate_error_cases {T : Type} (ext : Ext T) (d : Dtype)
    (image : ImageData) (regs : List RegionProps) (vz : Option ℚ) (vyx : ℚ)
    (sz : Option ℚ) (syx amp bg : ℚ) (table : T) (fuel : ℕ) (e : Err)
    (hvz : ¬(image.ndim = 3 ∧ vz = none)) (hsz : ¬(image.ndim = 3 ∧ sz = none))
    (h : simulate_gaussian_mixture ext d image regs vz vyx sz syx amp bg table
        fuel = .error e) :
    e = .negativeBackground ∨ e = .fuel ∨ e = .npIinfoError ∨ e = .indexError := by
  unfold simulate_gaussian_mixture at h
  by_cases hbg : bg < 0
  · rw [if_pos hbg] at h
    exact Or.inl (Except.error.inj h).symm
  · rw [if_neg hbg, if_neg hvz, if_neg hsz] at h
    cases image with
    | three dd hh ww pix =>
      cases hm : exceptMapM (fun q =>
          fit_region_3d ext d pix q.2 (vz.getD 0) vyx (sz.getD 0) syx amp bg
            table fuel q.1) (enumerate regs) with
      | error e' =>
        simp only [hm] at h
        have he := Except.error.inj h
        subst he
        obtain ⟨x, -, hfx⟩ := exceptMapM_error_mem _ _ _ hm
        rcases fit_region_3d_error_cases _ _ _ _ _ _ _ _ _ _ _ _ _ _ hfx
          with h1 | h1 | h1
        · exact Or.inr (Or.inl h1)
        · exact Or.inr (Or.inr (Or.inl h1))
        · exact Or.inr (Or.inr (Or.inr h1))
      | ok rs =>
        simp only [hm] at h
        cases h
    | two hh ww pix =>
      cases hm : exceptMapM (fun q =>
          fit_region_2d ext d pix q.2 vyx syx amp bg table fuel q.1)
          (enumerate regs) with
      | error e' =>
        simp only [hm] at h
        have he := Except.error.inj h
        subst he
        obtain ⟨x, -, hfx⟩ := exceptMapM_error_mem _ _ _ hm
        rcases fit_region_2d_error_cases _ _ _ _ _ _ _ _ _ _ _ _ hfx
          with h1 | h1 | h1
        · exact Or.inr (Or.inl h1)
        · exact Or.inr (Or.inr (Or.inl h1))
        · exact Or.inr (Or.inr (Or.inr h1))
      | ok rs =>
        simp only [hm] at h
        cases h

theorem denoised_image_ndim {T : Type} (ext : Ext T) (img : Image)
    (p : DecomposeParams) : (denoised_image ext img p).ndim = img.data.ndim := by
  unfold denoised_image
  by_cases hg : 0 < p.gamma
  · rw [if_pos hg]
    cases himg : img.data with
    | two h w pix => simp [himg, ImageData.ndim]
    | three d h w pix => simp [himg, ImageData.ndim]
  · rw [if_neg hg]

theorem get_dense_region_ok {T : Type} (ext : Ext T) (image : ImageData)
    (spots : Spots) (vz : Option ℚ) (vyx : ℚ) (pz : Option ℚ) (pyx beta : ℚ)
    (hb : ¬ beta < 0) (hvz : ¬(image.ndim = 3 ∧ vz = none))
    (hpz : ¬(image.ndim = 3 ∧ pz = none)) (hc : ¬(image.ndim ≠ spots.cols)) :
    get_dense_region ext image spots vz vyx pz pyx beta =
      .ok (filter_connected_region
        (ext.labelRegions (maskOf image (denseRegionThreshold
          (npMax (ext.buildRef image spots.rows vz vyx pz pyx (1 / 2))) beta)) image)
        spots.rows image.ndim) := by
  unfold get_dense_region
  rw [if_neg hb, if_neg hvz, if_neg hpz, if_neg hc]

/-- C7: `decompose_dense` fails with the invalid-argument error exactly when
alpha is outside `[0, 1]`, beta is negative, gamma is negative, the image is
3-d with `voxel_size_z` or `psf_z` missing, or the spot coordinate rank
differs from the image rank; the characterisation holds for every external
collaborator and every pixel content, so the failure is decided before any
computation on the image content. -/
theorem C7_validation_iff {T : Type} (ext : Ext T) (img : Image) (spots : Spots)
    (p : DecomposeParams) (fuel : ℕ) :
    decompose_dense ext img spots p fuel = .error .invalidArgument ↔
      invalid_decompose_args img spots p := by
  constructor
  · intro h
    by_contra hninv
    unfold invalid_decompose_args at hninv
    have h1 : ¬(p.alpha < 0 ∨ 1 < p.alpha) := fun hh => hninv (by tauto)
    have h2 : ¬ p.beta < 0 := fun hh => hninv (by tauto)
    have h3 : ¬ p.gamma < 0 := fun hh => hninv (by tauto)
    have h4 : ¬(img.data.ndim = 3 ∧ p.voxelSizeZ = none) := fun hh => hninv (by tauto)
    have h5 : ¬(img.data.ndim = 3 ∧ p.psfZ = none) := fun hh => hninv (by tauto)
    have h6 : ¬(img.data.ndim ≠ spots.cols) := fun hh => hninv (by tauto)
    unfold decompose_dense at h
    rw [if_neg h1, if_neg h2, if_neg h3, if_neg h4, if_neg h5, if_neg h6] at h
    by_cases c7 : spots.rows.length * spots.cols = 0
    · rw [if_pos c7] at h
      simp at h
    rw [if_neg c7] at h
    by_cases c8 : (reference_spot_of ext img spots p).sum = 0
    · rw [if_pos c8] at h
      simp at h
    rw [if_neg c8] at h
    have hvzo : ¬((denoised_image ext img p).ndim = 3 ∧ voxelZ_of img p = none) := by
      rw [denoised_image_ndim]
      rintro ⟨h3d, hnone⟩
      unfold voxelZ_of at hnone
      rw [if_neg (by rw [h3d]; norm_num)] at hnone
      exact h4 ⟨h3d, hnone⟩
    have hpzo : ¬((denoised_image ext img p).ndim = 3 ∧ psfZ_of img p = none) := by
      rw [denoised_image_ndim]
      rintro ⟨h3d, hnone⟩
      unfold psfZ_of at hnone
      rw [if_neg (by rw [h3d]; norm_num)] at hnone
      exact h5 ⟨h3d, hnone⟩
    have hco : ¬((denoised_image ext img p).ndim ≠ spots.cols) := by
      rw [denoised_image_ndim]
      exact h6
    have hreg := get_dense_region_ok ext (denoised_image ext img p) spots
      (voxelZ_of img p) p.voxelSizeYX (psfZ_of img p) p.psfYX p.beta h2 hvzo hpzo hco
    rcases hfc : filter_connected_region
        (ext.labelRegions (maskOf (denoised_image ext img p) (denseRegionThreshold
          (npMax (ext.buildRef (denoised_image ext img p) spots.rows
            (voxelZ_of img p) p.voxelSizeYX (psfZ_of img p) p.psfYX (1 / 2)))
          p.beta)) (denoised_image ext img p))
        spots.rows (denoised_image ext img p).ndim with ⟨filtered, spotsOut, msize⟩
    rw [hfc] at hreg
    simp only [hreg] at h
    by_cases c9 : filtered = []
    · rw [if_pos c9] at h
      simp at h
    rw [if_neg c9] at h
    have hszo : ¬((denoised_image ext img p).ndim = 3 ∧
        (fitted_params ext img spots p).1 = none) := by
      rw [denoised_image_ndim]
      rintro ⟨h3d, hnone⟩
      unfold fitted_params at hnone
      rw [if_pos h3d] at hnone
      simp at hnone
    cases hsim : simulate_gaussian_mixture ext img.dtype (denoised_image ext img p)
        filtered (voxelZ_of img p) p.voxelSizeYX
        (fitted_params ext img spots p).1 (fitted_params ext img spots p).2.1
        (fitted_params ext img spots p).2.2.1 (fitted_params ext img spots p).2.2.2
        (table_of ext img spots p msize) fuel with
    | error e =>
      simp only [hsim] at h
      obtain rfl : e = Err.invalidArgument := Except.error.inj h
      rcases simulate_error_cases _ _ _ _ _ _ _ _ _ _ _ _ _ hvzo hszo hsim
        with h1' | h1' | h1' | h1' <;> cases h1'
    | ok pr =>
      rcases pr with ⟨sin, recs⟩
      simp only [hsim] at h
      cases h
  · intro hinv
    unfold decompose_dense
    by_cases c1 : p.alpha < 0 ∨ 1 < p.alpha
    · rw [if_pos c1]
    rw [if_neg c1]
    by_cases c2 : p.beta < 0
    · rw [if_pos c2]
    rw [if_neg c2]
    by_cases c3 : p.gamma < 0
    · rw [if_pos c3]
    rw [if_neg c3]
    by_cases c4 : img.data.ndim = 3 ∧ p.voxelSizeZ = none
    · rw [if_pos c4]
    rw [if_neg c4]
    by_cases c5 : img.data.ndim = 3 ∧ p.psfZ = none
    · rw [if_pos c5]
    rw [if_neg c5]
    by_cases c6 : img.data.ndim ≠ spots.cols
    · rw [if_pos c6]
    exact absurd hinv (by unfold invalid_decompose_args; tauto)

/-! Degenerate short-circuits and the full pipeline path of
`decompose_dense` (C6, C8, C10, C3). -/

theorem ImageData.ndim_pos : ∀ (d : ImageData), 0 < d.ndim
  | .two _ _ _ => by norm_num [ImageData.ndim]
  | .three _ _ _ _ => by norm_num [ImageData.ndim]

theorem invalid_decompose_args_elim (img : Image) (spots : Spots)
    (p : DecomposeParams) (hv : ¬ invalid_decompose_args img spots p) :
    ¬(p.alpha < 0 ∨ 1 < p.alpha) ∧ ¬ p.beta < 0 ∧ ¬ p.gamma < 0 ∧
      ¬(img.data.ndim = 3 ∧ p.voxelSizeZ = none) ∧
      ¬(img.data.ndim = 3 ∧ p.psfZ = none) ∧ img.data.ndim = spots.cols := by
  unfold invalid_decompose_args at hv
  exact ⟨fun hh => hv (by tauto), fun hh => hv (by tauto), fun hh => hv (by tauto),
    fun hh => hv (by tauto), fun hh => hv (by tauto),
    not_not.mp fun hh => hv (by tauto)⟩

theorem rows_size_ne_zero (img : Image) (spots : Spots)
    (h6 : img.data.ndim = spots.cols) (hrows : spots.rows ≠ []) :
    ¬ spots.rows.length * spots.cols = 0 := by
  intro hh
  rcases Nat.mul_eq_zero.mp hh with hh | hh
  · exact hrows (List.length_eq_zero.mp hh)
  · rw [← h6] at hh
    exact (ImageData.ndim_pos img.data).ne' hh

/-- C6: with valid parameters, `decompose_dense` short-circuits — returning
the original spots unchanged, an empty region-summary array and the
reference-spot patch — whenever the input spot list is empty (then the
reference patch is the all-zero flattened patch of `5 ^ ndim` pixels, i.e.
shape `(5, 5)` or `(5, 5, 5)`), the reference spot sums to zero, or the
detector reports no candidate region. -/
theorem C6_short_circuits {T : Type} (ext : Ext T) (img : Image) (spots : Spots)
    (p : DecomposeParams) (fuel : ℕ) (hv : ¬ invalid_decompose_args img spots p) :
    (spots.rows = [] →
      decompose_dense ext img spots p fuel =
        .ok ⟨spots.rows, [], List.replicate (5 ^ img.data.ndim) 0, false⟩) ∧
    (spots.rows ≠ [] → (reference_spot_of ext img spots p).sum = 0 →
      decompose_dense ext img spots p fuel =
        .ok ⟨spots.rows, [], reference_spot_of ext img spots p, false⟩) ∧
    (∀ spotsOut msize, spots.rows ≠ [] →
      (reference_spot_of ext img spots p).sum ≠ 0 →
      get_dense_region ext (denoised_image ext img p) spots (voxelZ_of img p)
        p.voxelSizeYX (psfZ_of img p) p.psfYX p.beta = .ok ([], spotsOut, msize) →
      decompose_dense ext img spots p fuel =
        .ok ⟨spots.rows, [], reference_spot_of ext img spots p, false⟩) := by
  obtain ⟨h1, h2, h3, h4, h5, h6⟩ := invalid_decompose_args_elim img spots p hv
  have h6' : ¬(img.data.ndim ≠ spots.cols) := fun hh => hh h6
  refine ⟨?_, ?_, ?_⟩
  · intro hrows
    unfold decompose_dense
    rw [if_neg h1, if_neg h2, if_neg h3, if_neg h4, if_neg h5, if_neg h6',
      if_pos (by rw [hrows]; simp)]
  · intro hrows hsum
    unfold decompose_dense
    rw [if_neg h1, if_neg h2, if_neg h3, if_neg h4, if_neg h5, if_neg h6',
      if_neg (rows_size_ne_zero img spots h6 hrows), if_pos hsum]
  · intro spotsOut msize hrows hsum hreg
    unfold decompose_dense
    rw [if_neg h1, if_neg h2, if_neg h3, if_neg h4, if_neg h5, if_neg h6',
      if_neg (rows_size_ne_zero img spots h6 hrows), if_neg hsum]
    simp only [hreg]
    rw [if_pos trivial]

/-- When nothing degenerate happens, `decompose_dense` returns the merged
outside and inside spots, the region records, the reference spot and the
fewer-spots warning flag. -/
theorem decompose_dense_full_path {T : Type} (ext : Ext T) (img : Image)
    (spots : Spots) (p : DecomposeParams) (fuel : ℕ)
    (hv : ¬ invalid_decompose_args img spots p) (hrows : spots.rows ≠ [])
    (href : (reference_spot_of ext img spots p).sum ≠ 0)
    (filtered : List RegionProps) (spotsOut : List (List ℤ)) (msize : ℤ)
    (hreg : get_dense_region ext (denoised_image ext img p) spots (voxelZ_of img p)
      p.voxelSizeYX (psfZ_of img p) p.psfYX p.beta = .ok (filtered, spotsOut, msize))
    (hfil : filtered ≠ []) (sin recs : List (List ℤ))
    (hsim : simulate_gaussian_mixture ext img.dtype (denoised_image ext img p)
      filtered (voxelZ_of img p) p.voxelSizeYX
      (fitted_params ext img spots p).1 (fitted_params ext img spots p).2.1
      (fitted_params ext img spots p).2.2.1 (fitted_params ext img spots p).2.2.2
      (table_of ext img spots p msize) fuel = .ok (sin, recs)) :
    decompose_dense ext img spots p fuel =
      .ok ⟨spotsOut ++ sin.map (List.take img.data.ndim), recs,
        reference_spot_of ext img spots p,
        decide (spotsOut.length + sin.length < spots.rows.length)⟩ := by
  obtain ⟨h1, h2, h3, h4, h5, h6⟩ := invalid_decompose_args_elim img spots p hv
  have h6' : ¬(img.data.ndim ≠ spots.cols) := fun hh => hh h6
  unfold decompose_dense
  rw [if_neg h1, if_neg h2, if_neg h3, if_neg h4, if_neg h5, if_neg h6',
    if_neg (rows_size_ne_zero img spots h6 hrows), if_neg href]
  simp only [hreg]
  rw [if_neg hfil]
  simp only [hsim]

/-- C8: on the full pipeline path, `decompose_dense` returns the merged
result (outside spots, then the fitted inside spots stripped of their
region index), and its warning flag is set if and only if the total
post-decomposition spot count is strictly smaller than the input spot
count. -/
theorem C8_fewer_spots_warning {T : Type} (ext : Ext T) (img : Image)
    (spots : Spots) (p : DecomposeParams) (fuel : ℕ)
    (hv : ¬ invalid_decompose_args img spots p) (hrows : spots.rows ≠ [])
    (href : (reference_spot_of ext img spots p).sum ≠ 0)
    (filtered : List RegionProps) (spotsOut : List (List ℤ)) (msize : ℤ)
    (hreg : get_dense_region ext (denoised_image ext img p) spots (voxelZ_of img p)
      p.voxelSizeYX (psfZ_of img p) p.psfYX p.beta = .ok (filtered, spotsOut, msize))
    (hfil : filtered ≠ []) (sin recs : List (List ℤ))
    (hsim : simulate_gaussian_mixture ext img.dtype (denoised_image ext img p)
      filtered (voxelZ_of img p) p.voxelSizeYX
      (fitted_params ext img spots p).1 (fitted_params ext img spots p).2.1
      (fitted_params ext img spots p).2.2.1 (fitted_params ext img spots p).2.2.2
      (table_of ext img spots p msize) fuel = .ok (sin, recs)) :
    ∃ r, decompose_dense ext img spots p fuel = .ok r ∧
      (r.warned = true ↔ spotsOut.length + sin.length < spots.rows.length) ∧
      r.spots = spotsOut ++ sin.map (List.take img.data.ndim) := by
  refine ⟨_, decompose_dense_full_path ext img spots p fuel hv hrows href filtered
    spotsOut msize hreg hfil sin recs hsim, ?_, rfl⟩
  simp

/-! Concrete end-to-end scenario: a `2 × 2` uint8 image whose top row holds
two pixels of value 4, one input spot inside the single candidate region,
trivial external collaborators and the gaussian evaluator `gW`. -/

/-- Pixel function of the scenario image. -/
def pixW : ℕ → ℕ → ℚ := fun y _ => if y = 0 then 4 else 0

/-- The scenario image: `2 × 2`, uint8. -/
def imgW : Image := ⟨Dtype.uint8, .two 2 2 pixW⟩

/-- One input spot at `(0, 0)`. -/
def spotsW : Spots := ⟨2, [[0, 0]]⟩

/-- Scenario parameters: 2-d geometry, `alpha = 1/2`, `beta = 1`,
`gamma = 0` (no denoising). -/
def paramsW : DecomposeParams := ⟨none, 1, none, 1, 1 / 2, 1, 0⟩

/-- The single candidate region of the scenario: bounding box
`(0, 0, 1, 2)`, area 2, mean intensity 4. -/
def regionW : RegionProps := ⟨[0, 0, 1, 2], 2, 4⟩

/-- Trivial external collaborators of the scenario. -/
def extW : Ext Unit where
  denoise2 := fun pix _ _ _ _ _ => pix
  denoise3 := fun pix _ _ _ _ _ => pix
  buildRef := fun _ _ _ _ _ _ _ => [1]
  modelize3 := fun _ => (1, 1, 1, 1)
  modelize2 := fun _ => (1, 1, 1)
  labelRegions := fun _ _ => [regionW]
  precomputeErf := fun _ _ _ _ _ => ()
  gauss3 := fun _ _ _ _ _ _ _ _ _ _ => []
  gauss2 := fun _ _ _ mu _ _ _ bg => gW mu bg

theorem C8_witness :
    ∃ r, decompose_dense extW imgW spotsW paramsW 10 = .ok r ∧
      (r.warned = true ↔
        ([] : List (List ℤ)).length +
          ([[0, 0, 0], [0, 1, 0]] : List (List ℤ)).length < spotsW.rows.length) ∧
      r.spots = ([] : List (List ℤ)) ++
        ([[0, 0, 0], [0, 1, 0]] : List (List ℤ)).map (List.take imgW.data.ndim) :=
  C8_fewer_spots_warning extW imgW spotsW paramsW 10
    (by with_unfolding_all decide) (by with_unfolding_all decide)
    (by with_unfolding_all decide) [regionW] [] 2
    (by with_unfolding_all decide) (by with_unfolding_all decide)
    [[0, 0, 0], [0, 1, 0]] [[0, 0, 2, 2, 4, 0]] (by with_unfolding_all decide)

theorem C6_witness :
    decompose_dense extW imgW ⟨2, []⟩ paramsW 10 =
      .ok ⟨[], [], List.replicate (5 ^ 2) 0, false⟩ :=
  (C6_short_circuits extW imgW ⟨2, []⟩ paramsW 10 (by with_unfolding_all decide)).1 rfl

/-! Region summary records (C3). -/

/-- Candidate region with a fractional mean intensity, used to exhibit the
int64 truncation of the emitted summary record. -/
def regionHalf : RegionProps := ⟨[0, 0, 1, 2], 2, 15 / 2⟩

/-- C3: the claim is false as stated: the summary record is emitted as an
`np.int64` array, so its mean-intensity entry is the truncation of the
region's mean intensity, not a copy — here the region has mean intensity
15/2 while the record stores 7 (and its centroid entries are integers, not
float values). -/
theorem C3_centroid_counterexample :
    regionHalf.meanIntensity = 15 / 2 ∧
      fit_region_2d extW Dtype.uint8 pixW regionHalf 1 1 1 1 () 10 0 =
        .ok ([[0, 0, 0], [0, 1, 0]], [0, 0, 2, 2, 7, 0]) ∧
      ((7 : ℚ) ≠ 15 / 2) := by
  refine ⟨rfl, by with_unfolding_all decide, by norm_num⟩

/-- C3 amended: for every region that decomposes successfully, the emitted
summary record is the `np.int64` array whose first entries are the
truncations of the first fitted position's global coordinates, followed by
the number of fitted positions, the copied area, the truncated mean
intensity and the region index; the in-region spot rows are the truncated
global coordinates tagged with the region index. -/
theorem C3_record_amended :
    (∀ (T : Type) (ext : Ext T) (d : Dtype) (pix : ℕ → ℕ → ℚ) (r : RegionProps)
      (vyx syx amp bg : ℚ) (table : T) (fuel i : ℕ) (si : List (List ℤ))
      (rec : List ℤ),
      fit_region_2d ext d pix r vyx syx amp bg table fuel i = .ok (si, rec) →
      ∃ fr, region_fit_2d ext d pix r vyx syx amp bg table fuel = .ok fr ∧
        ∃ p0 rest0, fr.positions = p0 :: rest0 ∧
          si = (global_coords_2d vyx r fr.positions).map
            (fun c => [pyInt c.1, pyInt c.2, (i : ℤ)]) ∧
          rec = [pyInt (p0.1 / vyx + (r.bbox.getD 0 0 : ℚ)),
            pyInt (p0.2 / vyx + (r.bbox.getD 1 0 : ℚ)),
            (fr.positions.length : ℤ), r.area, pyInt r.meanIntensity, (i : ℤ)]) ∧
    (∀ (T : Type) (ext : Ext T) (d : Dtype) (pix : ℕ → ℕ → ℕ → ℚ) (r : RegionProps)
      (vz vyx sz syx amp bg : ℚ) (table : T) (fuel i : ℕ) (si : List (List ℤ))
      (rec : List ℤ),
      fit_region_3d ext d pix r vz vyx sz syx amp bg table fuel i = .ok (si, rec) →
      ∃ fr, region_fit_3d ext d pix r vz vyx sz syx amp bg table fuel = .ok fr ∧
        ∃ p0 rest0, fr.positions = p0 :: rest0 ∧
          si = (global_coords_3d vz vyx r fr.positions).map
            (fun c => [pyInt c.1, pyInt c.2.1, pyInt c.2.2, (i : ℤ)]) ∧
          rec = [pyInt (p0.1 / vz + (r.bbox.getD 0 0 : ℚ)),
            pyInt (p0.2.1 / vyx + (r.bbox.getD 1 0 : ℚ)),
            pyInt (p0.2.2 / vyx + (r.bbox.getD 2 0 : ℚ)),
            (fr.positions.length : ℤ), r.area, pyInt r.meanIntensity, (i : ℤ)]) := by
  constructor
  · intro T ext d pix r vyx syx amp bg table fuel i si rec h
    unfold fit_region_2d at h
    cases hr : region_fit_2d ext d pix r vyx syx amp bg table fuel with
    | error e =>
      simp only [hr] at h
      cases h
    | ok fr =>
      simp only [hr] at h
      cases hg : global_coords_2d vyx r fr.positions with
      | nil =>
        simp only [hg] at h
        cases h
      | cons q rest =>
        simp only [hg] at h
        have hpair := Except.ok.inj h
        injection hpair with hsi hrec
        subst hsi
        subst hrec
        cases hps : fr.positions with
        | nil =>
          rw [hps] at hg
          unfold global_coords_2d at hg
          simp at hg
        | cons p0 rest0 =>
          have hg' := hg
          rw [hps] at hg'
          unfold global_coords_2d at hg'
          simp only [List.map_cons] at hg'
          injection hg' with hq hrest
          refine ⟨fr, rfl, p0, rest0, hps, ?_, ?_⟩
          · rw [hg]
          · rw [hps, ← hq, ← hrest]
            simp [List.length_map]
  · intro T ext d pix r vz vyx sz syx amp bg table fuel i si rec h
    unfold fit_region_3d at h
    cases hr : region_fit_3d ext d pix r vz vyx sz syx amp bg table fuel with
    | error e =>
      simp only [hr] at h
      cases h
    | ok fr =>
      simp only [hr] at h
      cases hg : global_coords_3d vz vyx r fr.positions with
      | nil =>
        simp only [hg] at h
        cases h
      | cons q rest =>
        simp only [hg] at h
        have hpair := Except.ok.inj h
        injection hpair with hsi hrec
        subst hsi
        subst hrec
        cases hps : fr.positions with
        | nil =>
          rw [hps] at hg
          unfold global_coords_3d at hg
          simp at hg
        | cons p0 rest0 =>
          have hg' := hg
          rw [hps] at hg'
          unfold global_coords_3d at hg'
          simp only [List.map_cons] at hg'
          injection hg' with hq hrest
          refine ⟨fr, rfl, p0, rest0, hps, ?_, ?_⟩
          · rw [hg]
          · rw [hps, ← hq, ← hrest]
            simp [List.length_map]

theorem C3_witness :
    ∃ fr, region_fit_2d extW Dtype.uint8 pixW regionW 1 1 1 1 () 10 = .ok fr ∧
      ∃ p0 rest0, fr.positions = p0 :: rest0 ∧
        ([[0, 0, 0], [0, 1, 0]] : List (List ℤ)) =
          (global_coords_2d 1 regionW fr.positions).map
            (fun c => [pyInt c.1, pyInt c.2, ((0 : ℕ) : ℤ)]) ∧
        ([0, 0, 2, 2, 4, 0] : List ℤ) =
          [pyInt (p0.1 / 1 + (regionW.bbox.getD 0 0 : ℚ)),
            pyInt (p0.2 / 1 + (regionW.bbox.getD 1 0 : ℚ)),
            (fr.positions.length : ℤ), regionW.area, pyInt regionW.meanIntensity,
            ((0 : ℕ) : ℤ)] :=
  C3_record_amended.1 Unit extW Dtype.uint8 pixW regionW 1 1 1 1 () 10 0
    [[0, 0, 0], [0, 1, 0]] [0, 0, 2, 2, 4, 0] (by with_unfolding_all decide)

/-- C10: on the full pipeline path, the merged output of `decompose_dense`
is the outside spots followed by the fitted inside rows stripped of their
region index, and every fitted inside row is an int64 row obtained by
truncating toward zero the global float coordinates — each fitted physical
position divided by the voxel size of its axis, plus the region bounding
box's minimum corner — tagged with the region index. -/
theorem C10_truncated_coordinates {T : Type} (ext : Ext T) (img : Image)
    (spots : Spots) (p : DecomposeParams) (fuel : ℕ)
    (hv : ¬ invalid_decompose_args img spots p) (hrows : spots.rows ≠ [])
    (href : (reference_spot_of ext img spots p).sum ≠ 0)
    (filtered : List RegionProps) (spotsOut : List (List ℤ)) (msize : ℤ)
    (hreg : get_dense_region ext (denoised_image ext img p) spots (voxelZ_of img p)
      p.voxelSizeYX (psfZ_of img p) p.psfYX p.beta = .ok (filtered, spotsOut, msize))
    (hfil : filtered ≠ []) (sin recs : List (List ℤ))
    (hsim : simulate_gaussian_mixture ext img.dtype (denoised_image ext img p)
      filtered (voxelZ_of img p) p.voxelSizeYX
      (fitted_params ext img spots p).1 (fitted_params ext img spots p).2.1
      (fitted_params ext img spots p).2.2.1 (fitted_params ext img spots p).2.2.2
      (table_of ext img spots p msize) fuel = .ok (sin, recs)) :
    decompose_dense ext img spots p fuel =
      .ok ⟨spotsOut ++ sin.map (List.take img.data.ndim), recs,
        reference_spot_of ext img spots p,
        decide (spotsOut.length + sin.length < spots.rows.length)⟩ ∧
    (∀ h w pix, denoised_image ext img p = ImageData.two h w pix →
      ∀ row ∈ sin, ∃ i r fr y x, (i, r) ∈ enumerate filtered ∧
        region_fit_2d ext img.dtype pix r p.voxelSizeYX
          (fitted_params ext img spots p).2.1 (fitted_params ext img spots p).2.2.1
          (fitted_params ext img spots p).2.2.2 (table_of ext img spots p msize)
          fuel = .ok fr ∧
        (y, x) ∈ fr.positions ∧
        row = [pyInt (y / p.voxelSizeYX + (r.bbox.getD 0 0 : ℚ)),
          pyInt (x / p.voxelSizeYX + (r.bbox.getD 1 0 : ℚ)), (i : ℤ)]) ∧
    (∀ dd h w pix, denoised_image ext img p = ImageData.three dd h w pix →
      ∀ row ∈ sin, ∃ i r fr z y x, (i, r) ∈ enumerate filtered ∧
        region_fit_3d ext img.dtype pix r ((voxelZ_of img p).getD 0) p.voxelSizeYX
          ((fitted_params ext img spots p).1.getD 0)
          (fitted_params ext img spots p).2.1 (fitted_params ext img spots p).2.2.1
          (fitted_params ext img spots p).2.2.2 (table_of ext img spots p msize)
          fuel = .ok fr ∧
        (z, y, x) ∈ fr.positions ∧
        row = [pyInt (z / (voxelZ_of img p).getD 0 + (r.bbox.getD 0 0 : ℚ)),
          pyInt (y / p.voxelSizeYX + (r.bbox.getD 1 0 : ℚ)),
          pyInt (x / p.voxelSizeYX + (r.bbox.getD 2 0 : ℚ)), (i : ℤ)]) := by
  refine ⟨decompose_dense_full_path ext img spots p fuel hv hrows href filtered
    spotsOut msize hreg hfil sin recs hsim, ?_, ?_⟩
  · intro h w pix hden row hrow
    rw [hden] at hsim
    unfold simulate_gaussian_mixture at hsim
    by_cases hbg : (fitted_params ext img spots p).2.2.2 < 0
    · rw [if_pos hbg] at hsim
      cases hsim
    rw [if_neg hbg, if_neg (by simp [ImageData.ndim]),
      if_neg (by simp [ImageData.ndim])] at hsim
    dsimp only at hsim
    cases hm : exceptMapM (fun q =>
        fit_region_2d ext img.dtype pix q.2 p.voxelSizeYX
          (fitted_params ext img spots p).2.1 (fitted_params ext img spots p).2.2.1
          (fitted_params ext img spots p).2.2.2 (table_of ext img spots p msize)
          fuel q.1) (enumerate filtered) with
    | error e =>
      simp only [hm] at hsim
      cases hsim
    | ok rs =>
      simp only [hm] at hsim
      have hpair := Except.ok.inj hsim
      injection hpair with hsin hrecs
      subst hsin
      obtain ⟨l, hl, hrl⟩ := List.mem_flatten.mp hrow
      obtain ⟨pr, hpr, rfl⟩ := List.mem_map.mp hl
      obtain ⟨q, hq, hfq⟩ := exceptMapM_ok_mem _ _ _ hm pr hpr
      unfold fit_region_2d at hfq
      cases hr : region_fit_2d ext img.dtype pix q.2 p.voxelSizeYX
          (fitted_params ext img spots p).2.1 (fitted_params ext img spots p).2.2.1
          (fitted_params ext img spots p).2.2.2 (table_of ext img spots p msize)
          fuel with
      | error e =>
        simp only [hr] at hfq
        cases hfq
      | ok fr =>
        simp only [hr] at hfq
        cases hg : global_coords_2d p.voxelSizeYX q.2 fr.positions with
        | nil =>
          simp only [hg] at hfq
          cases hfq
        | cons c0 crest =>
          simp only [hg] at hfq
          have hpair2 := Except.ok.inj hfq
          subst hpair2
          obtain ⟨c, hc, hcrow⟩ := List.mem_map.mp hrl
          rw [← hg] at hc
          unfold global_coords_2d at hc
          obtain ⟨pos, hpos, hcpos⟩ := List.mem_map.mp hc
          refine ⟨q.1, q.2, fr, pos.1, pos.2, hq, hr, hpos, ?_⟩
          rw [← hcrow, ← hcpos]
  · intro dd h w pix hden row hrow
    rw [hden] at hsim
    unfold simulate_gaussian_mixture at hsim
    by_cases hbg : (fitted_params ext img spots p).2.2.2 < 0
    · rw [if_pos hbg] at hsim
      cases hsim
    by_cases hvz : (ImageData.three dd h w pix).ndim = 3 ∧ voxelZ_of img p = none
    · rw [if_neg hbg, if_pos hvz] at hsim
      cases hsim
    by_cases hsz : (ImageData.three dd h w pix).ndim = 3 ∧
        (fitted_params ext img spots p).1 = none
    · rw [if_neg hbg, if_neg hvz, if_pos hsz] at hsim
      cases hsim
    rw [if_neg hbg, if_neg hvz, if_neg hsz] at hsim
    dsimp only at hsim
    cases hm : exceptMapM (fun q =>
        fit_region_3d ext img.dtype pix q.2 ((voxelZ_of img p).getD 0) p.voxelSizeYX
          (((fitted_params ext img spots p).1).getD 0)
          (fitted_params ext img spots p).2.1 (fitted_params ext img spots p).2.2.1
          (fitted_params ext img spots p).2.2.2 (table_of ext img spots p msize)
          fuel q.1) (enumerate filtered) with
    | error e =>
      simp only [hm] at hsim
      cases hsim
    | ok rs =>
      simp only [hm] at hsim
      have hpair := Except.ok.inj hsim
      injection hpair with hsin hrecs
      subst hsin
      obtain ⟨l, hl, hrl⟩ := List.mem_flatten.mp hrow
      obtain ⟨pr, hpr, rfl⟩ := List.mem_map.mp hl
      obtain ⟨q, hq, hfq⟩ := exceptMapM_ok_mem _ _ _ hm pr hpr
      unfold fit_region_3d at hfq
      cases hr : region_fit_3d ext img.dtype pix q.2 ((voxelZ_of img p).getD 0)
          p.voxelSizeYX (((fitted_params ext img spots p).1).getD 0)
          (fitted_params ext img spots p).2.1 (fitted_params ext img spots p).2.2.1
          (fitted_params ext img spots p).2.2.2 (table_of ext img spots p msize)
          fuel with
      | error e =>
        simp only [hr] at hfq
        cases hfq
      | ok fr =>
        simp only [hr] at hfq
        cases hg : global_coords_3d ((voxelZ_of img p).getD 0) p.voxelSizeYX q.2
            fr.positions with
        | nil =>
          simp only [hg] at hfq
          cases hfq
        | cons c0 crest =>
          simp only [hg] at hfq
          have hpair2 := Except.ok.inj hfq
          subst hpair2
          obtain ⟨c, hc, hcrow⟩ := List.mem_map.mp hrl
          rw [← hg] at hc
          unfold global_coords_3d at hc
          obtain ⟨pos, hpos, hcpos⟩ := List.mem_map.mp hc
          refine ⟨q.1, q.2, fr, pos.1, pos.2.1, pos.2.2, hq, hr, hpos, ?_⟩
          rw [← hcrow, ← hcpos]

theorem C10_witness :
    decompose_dense extW imgW spotsW paramsW 10 =
        .ok ⟨([] : List (List ℤ)) ++
            ([[0, 0, 0], [0, 1, 0]] : List (List ℤ)).map (List.take imgW.data.ndim),
          [[0, 0, 2, 2, 4, 0]], reference_spot_of extW imgW spotsW paramsW,
          decide (([] : List (List ℤ)).length +
            ([[0, 0, 0], [0, 1, 0]] : List (List ℤ)).length < spotsW.rows.length)⟩ ∧
      ∃ i r fr y x, (i, r) ∈ enumerate [regionW] ∧
        region_fit_2d extW imgW.dtype pixW r paramsW.voxelSizeYX
          (fitted_params extW imgW spotsW paramsW).2.1
          (fitted_params extW imgW spotsW paramsW).2.2.1
          (fitted_params extW imgW spotsW paramsW).2.2.2
          (table_of extW imgW spotsW paramsW 2) 10 = .ok fr ∧
        (y, x) ∈ fr.positions ∧
        ([0, 0, 0] : List ℤ) =
          [pyInt (y / paramsW.voxelSizeYX + (r.bbox.getD 0 0 : ℚ)),
            pyInt (x / paramsW.voxelSizeYX + (r.bbox.getD 1 0 : ℚ)), (i : ℤ)] := by
  have hyps := C10_truncated_coordinates extW imgW spotsW paramsW 10
    (by with_unfolding_all decide) (by with_unfolding_all decide)
    (by with_unfolding_all decide) [regionW] [] 2
    (by with_unfolding_all decide) (by with_unfolding_all decide)
    [[0, 0, 0], [0, 1, 0]] [[0, 0, 2, 2, 4, 0]] (by with_unfolding_all decide)
  exact ⟨hyps.1, hyps.2.1 2 2 pixW (by with_unfolding_all rfl) [0, 0, 0]
    (by with_unfolding_all decide)⟩

end BigFish
